/-
Verification of the code2doc adaptive ingestion pipeline.

This file gives a shallow embedding, in Lean 4, of the parts of the
pipeline that the checked claims are about:

* the MD5 digest (the code uses hashlib.md5 for repo ids, file hashes,
  chunk hashes and the repository fingerprint), implemented here in full
  and executable;
* the file-size classifier and the greedy memory-safe batch packing;
* the pre-filter gate deciding whether a file is processed at all;
* the embedding service's vector validation;
* the dual-store write path (SQLite rows as upsert-by-primary-key maps,
  Qdrant points keyed by a hash-derived point id) and repository deletion;
* the repository fingerprint and the change check;
* the per-repository processing entry point.

Machine integers do not occur (Python ints are unbounded);  32-bit MD5
arithmetic is Nat with explicit % 2^32.  Python floats returned by the
embedding backend are modelled by an inductive value type (finite
rational / NaN / +-Inf / non-convertible), since the code only ever
classifies them, never computes with them.  Fallible Python code is
modelled with Except / Option, with injected failure flags for external
effects (database errors, unreadable files, ...).
-/
import Mathlib

/-! ## Generic helpers -/

/-- Split a list into consecutive chunks of size `n` (the pattern
`for i in range(0, len(l), n): l[i:i+n]` used throughout the code). -/
def chunksOf (n : ℕ) (l : List α) : List (List α) :=
  (List.range ((l.length + n - 1) / n)).map fun i => (l.drop (i * n)).take n

/-! ## MD5 (hashlib.md5) -/

/-- Addition modulo 2^32. -/
def add32 (a b : ℕ) : ℕ := (a + b) % 4294967296

/-- Bitwise complement on 32-bit words. -/
def not32 (a : ℕ) : ℕ := Nat.xor a 4294967295

/-- Left rotation of a 32-bit word by `s` places. -/
def rotl32 (x s : ℕ) : ℕ := (x * 2 ^ s) % 4294967296 + (x % 4294967296) / 2 ^ (32 - s) % 2 ^ s

/-- The 64 MD5 sine-table constants `T[i] = floor(2^32 * |sin(i+1)|)`. -/
def md5K : List ℕ :=
  [0xd76aa478, 0xe8c7b756, 0x242070db, 0xc1bdceee,
   0xf57c0faf, 0x4787c62a, 0xa8304613, 0xfd469501,
   0x698098d8, 0x8b44f7af, 0xffff5bb1, 0x895cd7be,
   0x6b901122, 0xfd987193, 0xa679438e, 0x49b40821,
   0xf61e2562, 0xc040b340, 0x265e5a51, 0xe9b6c7aa,
   0xd62f105d, 0x02441453, 0xd8a1e681, 0xe7d3fbc8,
   0x21e1cde6, 0xc33707d6, 0xf4d50d87, 0x455a14ed,
   0xa9e3e905, 0xfcefa3f8, 0x676f02d9, 0x8d2a4c8a,
   0xfffa3942, 0x8771f681, 0x6d9d6122, 0xfde5380c,
   0xa4beea44, 0x4bdecfa9, 0xf6bb4b60, 0xbebfbc70,
   0x289b7ec6, 0xeaa127fa, 0xd4ef3085, 0x04881d05,
   0xd9d4d039, 0xe6db99e5, 0x1fa27cf8, 0xc4ac5665,
   0xf4292244, 0x432aff97, 0xab9423a7, 0xfc93a039,
   0x655b59c3, 0x8f0ccc92, 0xffeff47d, 0x85845dd1,
   0x6fa87e4f, 0xfe2ce6e0, 0xa3014314, 0x4e0811a1,
   0xf7537e82, 0xbd3af235, 0x2ad7d2bb, 0xeb86d391]

/-- The per-round left-rotation amounts. -/
def md5S : List ℕ :=
  [7, 12, 17, 22, 7, 12, 17, 22, 7, 12, 17, 22, 7, 12, 17, 22,
   5, 9, 14, 20, 5, 9, 14, 20, 5, 9, 14, 20, 5, 9, 14, 20,
   4, 11, 16, 23, 4, 11, 16, 23, 4, 11, 16, 23, 4, 11, 16, 23,
   6, 10, 15, 21, 6, 10, 15, 21, 6, 10, 15, 21, 6, 10, 15, 21]

/-- One MD5 round: nonlinear function and message index for round `i`. -/
def md5FG (b c d i : ℕ) : ℕ × ℕ :=
  if i < 16 then (Nat.lor (Nat.land b c) (Nat.land (not32 b) d), i)
  else if i < 32 then (Nat.lor (Nat.land d b) (Nat.land (not32 d) c), (5 * i + 1) % 16)
  else if i < 48 then (Nat.xor (Nat.xor b c) d, (3 * i + 5) % 16)
  else (Nat.xor c (Nat.lor b (not32 d)), (7 * i) % 16)

/-- Process one 64-byte block, updating the four-word state. -/
def md5Block (st : ℕ × ℕ × ℕ × ℕ) (block : List ℕ) : ℕ × ℕ × ℕ × ℕ :=
  let m : ℕ → ℕ := fun j =>
    block.getD (4 * j) 0 + 256 * block.getD (4 * j + 1) 0 +
      65536 * block.getD (4 * j + 2) 0 + 16777216 * block.getD (4 * j + 3) 0
  let (a0, b0, c0, d0) := st
  let core := (List.range 64).foldl
    (fun (s : ℕ × ℕ × ℕ × ℕ) i =>
      let (a, b, c, d) := s
      let (f, g) := md5FG b c d i
      let t := add32 (add32 (add32 f a) (md5K.getD i 0)) (m g)
      (d, add32 b (rotl32 t (md5S.getD i 0)), b, c))
    (a0, b0, c0, d0)
  (add32 a0 core.1, add32 b0 core.2.1, add32 c0 core.2.2.1, add32 d0 core.2.2.2)

/-- Little-endian byte expansion of a word, `k` bytes long. -/
def leBytes : ℕ → ℕ → List ℕ
  | 0, _ => []
  | k + 1, n => n % 256 :: leBytes k (n / 256)

/-- MD5 padding: append 0x80, zeros to 56 mod 64, and the 64-bit
little-endian bit length. -/
def md5Pad (msg : List ℕ) : List ℕ :=
  msg ++ 128 :: List.replicate ((119 - msg.length % 64) % 64) 0 ++
    leBytes 8 ((8 * msg.length) % 18446744073709551616)

/-- The 16-byte MD5 digest of a byte string. -/
def md5Bytes (msg : List ℕ) : List ℕ :=
  let final := (chunksOf 64 (md5Pad msg)).foldl md5Block
    (0x67452301, 0xefcdab89, 0x98badcfe, 0x10325476)
  leBytes 4 final.1 ++ leBytes 4 final.2.1 ++ leBytes 4 final.2.2.1 ++ leBytes 4 final.2.2.2

/-- Lowercase hex digit. -/
def hexDigit (n : ℕ) : Char :=
  if n < 10 then Char.ofNat (48 + n) else Char.ofNat (87 + n)

/-- Lowercase hex string of a byte list. -/
def hexOfBytes (bs : List ℕ) : String :=
  ⟨bs.flatMap fun b => [hexDigit (b / 16), hexDigit (b % 16)]⟩

/-- `hashlib.md5(msg).hexdigest()`. -/
def md5Hex (msg : List ℕ) : String := hexOfBytes (md5Bytes msg)

/-- UTF-8 encoding of one character (`str.encode()` on one code point). -/
def charUtf8 (c : Char) : List ℕ :=
  let n := c.toNat
  if n < 128 then [n]
  else if n < 2048 then [192 + n / 64, 128 + n % 64]
  else if n < 65536 then [224 + n / 4096, 128 + n / 64 % 64, 128 + n % 64]
  else [240 + n / 262144, 128 + n / 4096 % 64, 128 + n / 64 % 64, 128 + n % 64]

/-- `s.encode()`: UTF-8 bytes of a string. -/
def utf8Bytes (s : String) : List ℕ := s.data.flatMap charUtf8

/-- `hashlib.md5(s.encode()).hexdigest()`. -/
def md5HexOfString (s : String) : String := md5Hex (utf8Bytes s)

set_option maxRecDepth 20000

theorem md5_empty_vector : md5Hex [] = "d41d8cd98f00b204e9800998ecf8427e" := by decide

theorem md5_abc_vector :
    md5HexOfString "abc" = "900150983cd24fb0d6963f7d28e17f72" := by decide

/-- Python `str.lower()` (ASCII case fold; every name the code compares
is ASCII). -/
def py_lower (s : String) : String := ⟨s.data.map Char.toLower⟩

/-- Python `s.startswith(pre)`. -/
def py_startswith (s pre : String) : Bool := List.isPrefixOf pre.data s.data

/-- Code-point lexicographic comparison, Python's `<=` on strings. -/
def chars_le : List Char → List Char → Bool
  | [], _ => true
  | _ :: _, [] => false
  | a :: as, b :: bs =>
    if a.toNat < b.toNat then true
    else if b.toNat < a.toNat then false
    else chars_le as bs

/-! ## Files on disk

A `FileEntry` models one regular file as seen by the pipeline: its
relative path decomposed the way `pathlib` exposes it (`parts`, `name`,
`suffix`), its on-disk bytes, and the stat metadata the code never reads
for hashing (`mtime`, `perms`).  `st_size` is the byte length of the
content.  `io_error` models `OSError`/`IOError`/`PermissionError` raised
when the file is stated or opened. -/

structure FileEntry where
  parts : List String
  name : String
  suffix : String
  content : List ℕ
  mtime : ℕ
  perms : ℕ
  io_error : Bool := false
deriving DecidableEq

/-! ## AdaptiveFileClassifier (src/intelligence/classifier.py) -/

/-- The `FileSize` enum: SMALL < 1MB, MEDIUM 1-50MB, LARGE 50-500MB,
EXTRA_LARGE > 500MB. -/
inductive FileSize where
  | SMALL
  | MEDIUM
  | LARGE
  | EXTRA_LARGE
deriving DecidableEq

/-- `AdaptiveFileClassifier._get_size_category`: thresholds compared on
`size_mb = size_bytes / 1024**2` (exact rational here; `n / 2^20` is
exact in a Python float for every n below 2^53, and the thresholds 1, 50,
500 are exactly representable, so the comparisons decide identically). -/
def get_size_category (size_bytes : ℕ) : FileSize :=
  let size_mb : ℚ := (size_bytes : ℚ) / 1048576
  if size_mb < 1 then FileSize.SMALL
  else if size_mb < 50 then FileSize.MEDIUM
  else if size_mb < 500 then FileSize.LARGE
  else FileSize.EXTRA_LARGE

/-- One entry of `classify_files`' output. -/
structure FileClassification where
  path : FileEntry
  size_bytes : ℕ
  size_category : FileSize
  estimated_chunks : ℕ
  memory_requirement_mb : ℚ
deriving DecidableEq

/-- The classifier's fixed chunk size default. -/
def classifier_chunk_size : ℕ := 2000

/-- The per-file memory cost `(size_bytes * 3) / 1024**2` in MB. -/
def memory_requirement_of (size_bytes : ℕ) : ℚ := (size_bytes * 3 : ℚ) / 1048576

/-- The per-file work of `AdaptiveFileClassifier.classify_files`. -/
def classify_file (f : FileEntry) : FileClassification :=
  { path := f
    size_bytes := f.content.length
    size_category := get_size_category f.content.length
    estimated_chunks := max 1 (f.content.length / classifier_chunk_size)
    memory_requirement_mb := memory_requirement_of f.content.length }

/-- `classify_files`: partition (order-preserving) into the tier buckets. -/
def classify_files (paths : List FileEntry) (cat : FileSize) : List FileClassification :=
  (paths.map classify_file).filter fun c => c.size_category = cat

/-! ## Memory-safe batch packing
(`AdaptiveRepositoryProcessor._create_memory_safe_batches`) -/

/-- The loop of `_create_memory_safe_batches`: `cur` and `mem` are the
running `current_batch` and `current_memory`; a batch is closed when
adding the next file would push the accumulated cost over the budget and
the batch is nonempty. -/
def pack_batches (budget_mb : ℚ) :
    List FileClassification → List FileClassification → ℚ → List (List FileClassification)
  | [], cur, _ => if cur = [] then [] else [cur]
  | f :: rest, cur, mem =>
    if budget_mb < mem + f.memory_requirement_mb ∧ cur ≠ [] then
      cur :: pack_batches budget_mb rest [f] f.memory_requirement_mb
    else
      pack_batches budget_mb rest (cur ++ [f]) (mem + f.memory_requirement_mb)

/-- `sorted(files, key=lambda f: f.size_bytes)`. -/
def sort_by_size (files : List FileClassification) : List FileClassification :=
  files.mergeSort fun a b => a.size_bytes ≤ b.size_bytes

/-- `_create_memory_safe_batches`; `budget_mb` is the classifier's
`safe_memory_threshold * 1024` (MB). -/
def create_memory_safe_batches (budget_mb : ℚ) (files : List FileClassification) :
    List (List FileClassification) :=
  pack_batches budget_mb (sort_by_size files) [] 0

/-- Total estimated memory cost of a batch. -/
def batch_cost (b : List FileClassification) : ℚ :=
  (b.map fun f => f.memory_requirement_mb).sum

/-! ## The pre-filter gate (`AdaptiveRepositoryProcessor._should_process_file`) -/

/-- `self.binary_extensions`. -/
def binary_extensions : List String :=
  [".png", ".jpg", ".jpeg", ".gif",
   ".bmp", ".tiff", ".ico", ".webp",
   ".pdf", ".doc", ".docx", ".xls",
   ".xlsx", ".ppt", ".pptx", ".zip",
   ".tar", ".gz", ".rar", ".7z",
   ".bz2", ".xz", ".exe", ".dll",
   ".so", ".dylib", ".msi", ".deb",
   ".rpm", ".mp3", ".mp4", ".avi",
   ".mov", ".wav", ".flac", ".ogg",
   ".bin", ".dat", ".db", ".sqlite",
   ".sqlite3", ".woff", ".woff2",
   ".ttf", ".otf", ".eot", ".pyc",
   ".pyo", ".pyd", ".class", ".jar",
   ".o", ".obj", ".lib", ".a",
   ".out", ".iso", ".dmg", ".img",
   ".vdi", ".vmdk"]

/-- `self.skip_directories`. -/
def skip_directories : List String :=
  [".git", ".svn", ".hg", ".bzr",
   "__pycache__", ".pytest_cache",
   ".tox", ".coverage", "node_modules",
   ".npm", ".yarn", ".venv", "venv",
   "env", ".env", "dist", "build",
   "target", "out", ".idea",
   ".vscode", ".vs", ".eclipse",
   ".cache", ".tmp", "tmp", "temp",
   "logs", "log", ".docker", "docker",
   ".terraform", ".vagrant", "vendor",
   "packages"]

/-- `self.skip_file_patterns` (compared against `name.lower()`, so the
capitalised entries can in fact never match; kept verbatim). -/
def skip_file_patterns : List String :=
  [".gitignore", ".gitattributes", ".gitmodules",
   ".dockerignore", "Dockerfile", ".env", ".env.local",
   ".env.production", "package-lock.json", "yarn.lock",
   "poetry.lock", "Pipfile.lock", "requirements.txt",
   ".DS_Store", "Thumbs.db", "desktop.ini", "LICENSE",
   "COPYING", "COPYRIGHT", "CHANGELOG", "HISTORY", "NEWS"]

/-- The dotfile exceptions in `_should_process_file`. -/
def source_dot_suffixes : List String :=
  [".py", ".js", ".ts", ".java", ".cpp", ".c", ".h"]

/-- `sum(1 for byte in chunk if 32 <= byte <= 126 or byte in [9, 10, 13])`. -/
def printable_count (sample : List ℕ) : ℕ :=
  (sample.filter fun b => (32 ≤ b ∧ b ≤ 126) ∨ b = 9 ∨ b = 10 ∨ b = 13).length

/-- The hard size ceiling of the gate: 100MB. -/
def hard_size_ceiling : ℕ := 104857600

/-- `AdaptiveRepositoryProcessor._should_process_file`.  The 1KB content
sample is `content.take 1024`; the printable-character test compares the
exact rational ratio with 7/10 (the float computation decides every
possible sample, at most 1024 bytes, identically).  I/O failures
(`OSError` on `stat`, read errors) are the `io_error` flag and yield
`false` like every `except` branch of the source. -/
def should_process_file (f : FileEntry) : Bool :=
  if f.parts.any fun p => skip_directories.contains p then false
  else if binary_extensions.contains (py_lower f.suffix) then false
  else if skip_file_patterns.contains (py_lower f.name) then false
  else if py_startswith f.name "." ∧ ¬ source_dot_suffixes.contains f.suffix then false
  else if f.io_error then false
  else if hard_size_ceiling < f.content.length then false
  else if f.content.length = 0 then false
  else
    let chunk := f.content.take 1024
    if chunk ≠ [] ∧ chunk.contains 0 then false
    else if chunk ≠ [] ∧ (printable_count chunk : ℚ) / (chunk.length : ℚ) < 7 / 10 then false
    else true

/-! ## Data model (src/models) -/

/-- `DocumentMetadata` as far as the pipeline populates it. -/
structure DocumentMetadata where
  doc_type : String
  file_size : ℕ
  last_modified : ℕ
deriving DecidableEq

/-- `Document` (pydantic model).  `doc_uuid` is a `uuid4()` string; it is
a creation-time input here (fresh-name supply). -/
structure Document where
  doc_uuid : String
  content : String
  file_path : String
  file_hash : String
  repo_name : String
  metadata : Option DocumentMetadata := none
deriving DecidableEq

/-- `Document.create`: the content digest becomes `file_hash`. -/
def Document.create (doc_uuid content file_path repo_name : String)
    (metadata : Option DocumentMetadata := none) : Document :=
  { doc_uuid := doc_uuid
    content := content
    file_path := file_path
    file_hash := md5HexOfString content
    repo_name := repo_name
    metadata := metadata }

/-- The metadata dict `Chunk.from_document` fills in. -/
structure ChunkMeta where
  source_file : String
  chunk_num : ℕ
  repo : String
deriving DecidableEq

/-- `Chunk` (pydantic model); the model validator sets
`size = len(content)`. -/
structure Chunk where
  content : String
  doc_id : String
  chunk_hash : String
  size : ℕ
  metadata : Option ChunkMeta := none
deriving DecidableEq

/-- `Chunk.from_document`: the chunk hash is the digest of the chunk's
own text only. -/
def Chunk.from_document (doc : Document) (content : String) (chunk_num : ℕ) : Chunk :=
  { content := content
    doc_id := doc.doc_uuid
    chunk_hash := md5HexOfString content
    size := content.length
    metadata := some ⟨doc.file_path, chunk_num, doc.repo_name⟩ }

/-- `Embedding` (pydantic model); vector components are rationals since
only finite floats survive validation. -/
structure Embedding where
  vector : List ℚ
  chunk_id : String
  model_name : String := "nomic-embed-text"
  size : ℕ := 0
deriving DecidableEq

/-! ## EmbeddingService (src/embeddings/service.py)

A value coming back from the embedding backend is modelled by `PyVal`:
a finite float (as a rational), a NaN (for which `v == v` is false), an
infinity, or a value `float()` cannot convert. -/

inductive PyVal where
  | fin (q : ℚ)
  | nan
  | inf
  | ninf
  | bad
deriving DecidableEq

/-- `EmbeddingService._process_vector`: `none` iff the vector is empty or
any component is NaN, infinite or non-convertible. -/
def process_vector (v : List PyVal) : Option (List ℚ) :=
  if v = [] then none
  else v.mapM fun x =>
    match x with
    | .fin q => some q
    | _ => none

/-- `EmbeddingService.generate`, parametrised by the detected embedding
dimension, the model name, and the vectors the backend returned for the
chunk texts. -/
def service_generate (dim : ℕ) (model_name : String) (chunks : List Chunk)
    (vectors : List (List PyVal)) : List Embedding :=
  if chunks = [] then []
  else if vectors = [] then []
  else if vectors.length ≠ chunks.length then []
  else (chunks.zip vectors).filterMap fun cv =>
    match process_vector cv.2 with
    | none => none
    | some pv =>
      if pv.length ≠ dim then none
      else some { vector := pv
                  chunk_id := cv.1.doc_id ++ ":" ++ cv.1.chunk_hash
                  model_name := model_name
                  size := pv.length }

/-! ## The relational store (QdrantBatchWriter, SQLite side) -/

/-- A row of the `documents` table. -/
structure DocRow where
  id : String
  repo_id : String
  file_path : String
  file_hash : String
  content_preview : String
deriving DecidableEq

/-- A row of the `chunks` table. -/
structure ChunkRow where
  id : String
  doc_id : String
  repo_id : String
  chunk_hash : String
  content : String
  metadata : String
deriving DecidableEq

/-- A row of the `repositories` table. -/
structure RepoRow where
  id : String
  source : String
  type : String
  total_files : ℕ
  total_chunks : ℕ
  content_hash : Option String
deriving DecidableEq

/-- The three SQLite tables. -/
structure SqliteDb where
  repositories : List RepoRow := []
  documents : List DocRow := []
  chunks : List ChunkRow := []
deriving DecidableEq

/-- `INSERT OR REPLACE` keyed by primary key (also Qdrant's `upsert`
keyed by point id): drop any row with the same key, insert the new row. -/
def upsertBy {κ : Type} [DecidableEq κ] (key : α → κ) (row : α) (rows : List α) :
    List α :=
  (rows.filter fun r => key r ≠ key row) ++ [row]

/-- `str(chunk.metadata) if chunk.metadata else ""`; the exact Python
dict repr text is irrelevant to every claim, the model keeps the fields. -/
def chunk_meta_repr : Option ChunkMeta → String
  | none => ""
  | some m => "source_file=" ++ m.source_file ++ ";chunk_num=" ++ toString m.chunk_num ++
      ";repo=" ++ m.repo

/-- `doc.content[:500] + "..."` truncation for the preview column. -/
def content_preview (content : String) : String :=
  if 500 < content.length then content.take 500 ++ "..." else content

/-- `QdrantBatchWriter.write_documents_to_sqlite` (documents with an
empty `file_hash` are skipped before the executemany). -/
def write_documents_to_sqlite (documents : List Document) (repo_id : String)
    (db : SqliteDb) : SqliteDb :=
  if documents = [] then db
  else
    { db with documents :=
        ((documents.filter fun d => d.file_hash ≠ "").foldl
          (fun rows doc =>
            upsertBy DocRow.id
              ⟨doc.doc_uuid, repo_id, doc.file_path, doc.file_hash,
                content_preview doc.content⟩ rows)
          db.documents) }

/-- The row `write_chunks_to_sqlite` builds for one chunk: keyed by
`doc_id:chunk_hash`. -/
def chunk_row (repo_id : String) (c : Chunk) : ChunkRow :=
  ⟨c.doc_id ++ ":" ++ c.chunk_hash, c.doc_id, repo_id, c.chunk_hash, c.content,
    chunk_meta_repr c.metadata⟩

/-- `QdrantBatchWriter.write_chunks_to_sqlite`. -/
def write_chunks_to_sqlite (chunks : List Chunk) (repo_id : String) (db : SqliteDb) :
    SqliteDb :=
  if chunks = [] then db
  else
    { db with chunks :=
        (chunks.foldl (fun rows c => upsertBy ChunkRow.id (chunk_row repo_id c) rows)
          db.chunks) }

/-- `QdrantBatchWriter.update_repository_metadata`: whole-row
`INSERT OR REPLACE` of `(id, source, type, total_files, total_chunks)` —
note the replace resets `content_hash` to NULL. -/
def update_repository_metadata (repo_id source type_ : String)
    (total_files total_chunks : ℕ) (db : SqliteDb) : SqliteDb :=
  { db with repositories :=
      (upsertBy RepoRow.id ⟨repo_id, source, type_, total_files, total_chunks, none⟩
        db.repositories) }

/-- `QdrantBatchWriter.get_repository_hash`. -/
def get_repository_hash (db : SqliteDb) (repo_id : String) : Option String :=
  (db.repositories.find? fun r => r.id = repo_id).bind fun r => r.content_hash

/-! ## The vector store (QdrantBatchWriter, Qdrant side) -/

/-- One point of the `documents` collection with its payload. -/
structure QPoint where
  id : ℕ
  vector : List ℚ
  chunk_id : String
  repo_id : String
  repo_source : String
  model : String
  chunk_size : ℕ
deriving DecidableEq

/-- `abs(hash(f"{repo_id}_{emb.chunk_id}")) % (2**31)`.  `pyhash` is the
process's builtin string hash.  CPython salts string hashes with a
per-process random value (PYTHONHASHSEED is never set by this code), so
the hash function is an unknown member of a family that varies between
runs; it is therefore a parameter here, fixed within one process. -/
def mk_point_id (pyhash : String → ℤ) (repo_id chunk_id : String) : ℕ :=
  (pyhash (repo_id ++ "_" ++ chunk_id)).natAbs % 2147483648

/-- Qdrant `upsert`: replace-by-point-id. -/
def upsert_points (points : List QPoint) (store : List QPoint) : List QPoint :=
  points.foldl (fun st p => upsertBy QPoint.id p st) store

/-- `QdrantBatchWriter.write_embeddings_to_qdrant`: filter degenerate
embeddings, build points, upsert in sub-batches of 100. -/
def write_embeddings_to_qdrant (pyhash : String → ℤ) (embeddings : List Embedding)
    (repo_id repo_source : String) (store : List QPoint) : List QPoint :=
  if embeddings = [] then store
  else
    let valid := embeddings.filter fun e => e.vector ≠ [] ∧ e.chunk_id ≠ ""
    if valid = [] then store
    else
      let points := valid.map fun e =>
        QPoint.mk (mk_point_id pyhash repo_id e.chunk_id) e.vector e.chunk_id
          repo_id repo_source e.model_name e.size
      (chunksOf 100 points).foldl (fun st b => upsert_points b st) store

/-! ## Repository deletion (`QdrantBatchWriter.delete_repository_data`) -/

/-- The SQL statements of the deletion transaction, in source order. -/
inductive SqlStmt where
  | delete_chunks (repo_id : String)
  | delete_documents (repo_id : String)
  | delete_repository (repo_id : String)
deriving DecidableEq

/-- Effect of one deletion statement. -/
def apply_stmt (db : SqliteDb) : SqlStmt → SqliteDb
  | .delete_chunks rid => { db with chunks := db.chunks.filter fun c => c.repo_id ≠ rid }
  | .delete_documents rid =>
      { db with documents := db.documents.filter fun d => d.repo_id ≠ rid }
  | .delete_repository rid =>
      { db with repositories := db.repositories.filter fun r => r.id ≠ rid }

/-- Result of `delete_repository_data`: final stores, whether the call
raised, and the relational statements that were committed. -/
structure DeleteOutcome where
  db : SqliteDb
  qdrant : List QPoint
  raised : Bool
  committed_stmts : List SqlStmt

/-- `QdrantBatchWriter.delete_repository_data`.  `sqlite_error` models an
exception inside the relational transaction (rolled back and re-raised);
`qdrant_error` models a vector-store failure (logged, swallowed). -/
def delete_repository_data (repo_id : String) (sqlite_error qdrant_error : Bool)
    (db : SqliteDb) (store : List QPoint) : DeleteOutcome :=
  if sqlite_error then
    { db := db, qdrant := store, raised := true, committed_stmts := [] }
  else
    let stmts := [SqlStmt.delete_chunks repo_id, SqlStmt.delete_documents repo_id,
      SqlStmt.delete_repository repo_id]
    let db' := stmts.foldl apply_stmt db
    if qdrant_error then
      { db := db', qdrant := store, raised := false, committed_stmts := stmts }
    else
      { db := db', qdrant := store.filter fun p => p.repo_id ≠ repo_id,
        raised := false, committed_stmts := stmts }

/-- `repo_{md5(source)[:12]}` (identical in the three places it appears). -/
def generate_repo_id (source : String) : String :=
  "repo_" ++ (md5HexOfString source).take 12

/-! ## RepositoryManager (src/core/repository_manager.py) -/

/-- Python's `sep.join(parts)` (tail helper). -/
def joinTail (sep : String) : List String → String
  | [] => ""
  | y :: r => sep ++ y ++ joinTail sep r

/-- Python's `sep.join(parts)`. -/
def joinSep (sep : String) : List String → String
  | [] => ""
  | x :: rest => x ++ joinTail sep rest

/-- `str(file_path.relative_to(path))`: the relative path components
joined by the path separator. -/
def rel_path (f : FileEntry) : String := joinSep "/" f.parts

/-- Ordering used by `sorted(path.rglob("*"))`: `pathlib` compares path
strings, and the shared absolute prefix makes that the relative-path
string order. -/
def path_le (a b : FileEntry) : Bool := chars_le (rel_path a).data (rel_path b).data

/-- `RepositoryManager.binary_extensions` (hashing skip list). -/
def rm_binary_extensions : List String :=
  [".png", ".jpg", ".jpeg", ".gif", ".bmp",
   ".tiff", ".ico", ".pdf", ".doc", ".docx",
   ".xls", ".xlsx", ".ppt", ".pptx", ".zip",
   ".tar", ".gz", ".rar", ".7z", ".exe", ".dll",
   ".so", ".dylib", ".mp3", ".mp4", ".avi",
   ".mov", ".wav", ".bin", ".dat", ".db", ".sqlite"]

/-- `RepositoryManager.skip_directories` (hashing skip list). -/
def rm_skip_directories : List String :=
  [".git", "__pycache__", "node_modules",
   ".venv", "venv", ".pytest_cache", ".tox",
   "dist", "build", ".idea", ".vscode", ".vs",
   "target", "bin", "obj"]

/-- The 50MB ceiling of `_should_skip_file`. -/
def hash_size_ceiling : ℕ := 52428800

/-- `RepositoryManager._should_skip_file`.  `io_error` also covers the
per-file read failure in the hashing loop, which equally excludes the
file from the fingerprint. -/
def should_skip_file (f : FileEntry) : Bool :=
  if f.parts.any fun p => rm_skip_directories.contains p then true
  else if rm_binary_extensions.contains (py_lower f.suffix) then true
  else if py_startswith f.name "." then true
  else if f.io_error then true
  else if hash_size_ceiling < f.content.length then true
  else false

/-- The files that enter the fingerprint, in traversal-sorted order. -/
def fingerprint_files (dir : List FileEntry) : List FileEntry :=
  (dir.mergeSort path_le).filter fun f => ¬ should_skip_file f

/-- One `f"{relative_path}:{file_hash}"` entry. -/
def repo_hash_entry (f : FileEntry) : String :=
  rel_path f ++ ":" ++ md5Hex f.content

/-- The `f"{relative_path}:{file_hash}"` entries. -/
def fingerprint_entries (dir : List FileEntry) : List String :=
  (fingerprint_files dir).map repo_hash_entry

/-- `combined = "|".join(file_hashes)`. -/
def combined_string (dir : List FileEntry) : String :=
  joinSep "|" (fingerprint_entries dir)

/-- `RepositoryManager.calculate_repository_hash` on an existing,
readable repository directory, given as the list of its regular files
(a nonexistent path or a fatal error yields `""` in the source; callers
model that case separately). -/
def calculate_repository_hash (dir : List FileEntry) : String :=
  md5HexOfString (combined_string dir)

/-- A directory listing in the order `sorted(path.rglob("*"))` yields. -/
def sorted_listing (dir : List FileEntry) : Prop :=
  List.Pairwise (fun a b => path_le a b = true) dir

/-- Equality of everything the fingerprint may read from a file: path
pieces, content bytes and readability — but not `mtime` or `perms`. -/
def same_file_data (a b : FileEntry) : Prop :=
  a.parts = b.parts ∧ a.name = b.name ∧ a.suffix = b.suffix ∧
    a.content = b.content ∧ a.io_error = b.io_error

/-- `repo_source.startswith(("http://", "https://"))`. -/
def is_online (s : String) : Bool := py_startswith s "http://" || py_startswith s "https://"

/-- External effects of one `check_repository_changes` pass:
`calc_result` is what `calculate_repository_hash(repo_source)` does at
that path (`.error` = an exception escaping it, `.ok ""` = its fatal
failure result), `stored_hash` is the database lookup by repo id
(`.error` = a database exception). -/
structure ChangeEnv where
  calc_result : String → Except Unit String
  stored_hash : String → Except Unit (Option String)

/-- The per-source decision of `check_repository_changes` (`true` =
append to `repos_to_update`); the enclosing `except` turns any raised
error into `true`. -/
def source_needs_update (env : ChangeEnv) (s : String) : Bool :=
  if is_online s then true
  else
    match env.calc_result s with
    | .error _ => true
    | .ok current =>
      if current = "" then true
      else
        match env.stored_hash (generate_repo_id s) with
        | .error _ => true
        | .ok stored => if stored ≠ some current then true else false

/-- `RepositoryManager.check_repository_changes`. -/
def check_repository_changes (env : ChangeEnv) (repositories : List String) :
    List String :=
  repositories.filter fun s => source_needs_update env s

/-! ## AdaptiveRepositoryProcessor.process_repository_adaptive

The per-repository pipeline, with its external effects as an
environment: `load` is `_load_document` (internally caught, `none` on
any failure), `chunk_docs` is `chunk_generator.process` (may raise),
`embed` is `embedding_service.generate` (may raise), the `*_write_error`
flags are database exceptions at each write call, `stream_doc` /
`mmap_doc` are the large-file readers combined with
`_create_document_from_content` (internally caught), and
`enumerate_error` / `metadata_write_error` are the two failure points
whose exceptions reach the top-level `try`. -/

structure ProcState where
  sqlite : SqliteDb := {}
  qdrant : List QPoint := []
deriving DecidableEq

structure ProcEnv where
  pyhash : String → ℤ
  budget_mb : ℚ
  enumerate_error : Bool := false
  load : FileEntry → Option Document
  chunk_docs : Document → Except Unit (List Chunk)
  embed : List Chunk → Except Unit (List Embedding)
  doc_write_error : List Document → Bool := fun _ => false
  chunk_write_error : List Chunk → Bool := fun _ => false
  qdrant_write_error : List Embedding → Bool := fun _ => false
  stream_doc : FileEntry → Option Document
  mmap_doc : FileEntry → Option Document
  metadata_write_error : Bool := false

/-- `_write_batch_to_database`: documents, then chunks, then embeddings;
a Qdrant failure is swallowed, a SQLite failure propagates (with the
writes already committed kept). -/
def write_batch_to_database (env : ProcEnv) (st : ProcState)
    (documents : List Document) (chunks : List Chunk) (embeddings : List Embedding)
    (repo_id repo_source : String) : Except ProcState ProcState :=
  if env.doc_write_error documents ∧ documents ≠ [] then .error st
  else
    let st1 : ProcState :=
      { st with sqlite := write_documents_to_sqlite documents repo_id st.sqlite }
    if env.chunk_write_error chunks ∧ chunks ≠ [] then .error st1
    else
      let st2 : ProcState :=
        { st1 with sqlite := write_chunks_to_sqlite chunks repo_id st1.sqlite }
      if embeddings ≠ [] ∧ ¬ env.qdrant_write_error embeddings then
        .ok { st2 with qdrant :=
          (write_embeddings_to_qdrant env.pyhash embeddings repo_id repo_source
            st2.qdrant) }
      else .ok st2

/-- The document-loading loop of one small/medium batch (every failure
is caught and skips that file). -/
def load_batch_documents (env : ProcEnv) (batch : List FileClassification) :
    List Document :=
  batch.filterMap fun fc => env.load fc.path

/-- The chunking loop (a failing document is skipped). -/
def chunk_documents (env : ProcEnv) (docs : List Document) : List Chunk :=
  docs.foldl
    (fun cs d => match env.chunk_docs d with | .ok l => cs ++ l | .error _ => cs) []

/-- The embedding loop over sub-batches of `bs` chunks (a failing
sub-batch is skipped). -/
def embed_batches (env : ProcEnv) (all_chunks : List Chunk) (bs : ℕ) :
    List Embedding :=
  (chunksOf bs all_chunks).foldl
    (fun es sub => match env.embed sub with | .ok l => es ++ l | .error _ => es) []

/-- One iteration of `_process_small_medium_files`' batch loop. -/
def process_smallmedium_batch (env : ProcEnv) (repo_source repo_id : String)
    (acc : ProcState × ℕ × ℕ) (batch : List FileClassification) : ProcState × ℕ × ℕ :=
  let (st, tf, tc) := acc
  let documents := load_batch_documents env batch
  if documents = [] then (st, tf, tc)
  else
    let all_chunks := chunk_documents env documents
    if all_chunks = [] then (st, tf, tc)
    else
      let batch_embeddings := embed_batches env all_chunks 50
      match write_batch_to_database env st documents all_chunks batch_embeddings
          repo_id repo_source with
      | .ok st' => (st', tf + documents.length, tc + all_chunks.length)
      | .error st' => (st', tf, tc)

/-- `_process_small_medium_files`. -/
def process_small_medium_files (env : ProcEnv) (files : List FileClassification)
    (repo_source repo_id : String) (st : ProcState) : ProcState × ℕ × ℕ :=
  (create_memory_safe_batches env.budget_mb files).foldl
    (process_smallmedium_batch env repo_source repo_id) (st, 0, 0)

/-- One sub-batch iteration of the streaming write loops (`_stream_process_file`
and `_advanced_stream_process_file` share it verbatim): embed the
sub-batch (may raise), write its chunk rows (may raise), then write the
embeddings (Qdrant failures swallowed inside `write_embeddings_to_qdrant`). -/
def write_subbatch_step (env : ProcEnv) (repo_id repo_source : String)
    (acc : Except ProcState (ℕ × ProcState)) (sub : List Chunk) :
    Except ProcState (ℕ × ProcState) :=
  match acc with
  | .error st' => .error st'
  | .ok (n, st') =>
    match env.embed sub with
    | .error _ => .error st'
    | .ok embs =>
      if env.chunk_write_error sub then .error st'
      else
        let st2 : ProcState :=
          { st' with sqlite := write_chunks_to_sqlite sub repo_id st'.sqlite }
        let st3 : ProcState :=
          if env.qdrant_write_error embs then st2
          else { st2 with qdrant := (write_embeddings_to_qdrant env.pyhash
                  embs repo_id repo_source st2.qdrant) }
        .ok (n + sub.length, st3)

/-- `_stream_process_file` (LARGE tier): no internal catch, so an
embedding or SQLite failure raises to the caller with the partial writes
kept. -/
def stream_process_file (env : ProcEnv) (f : FileEntry)
    (repo_id repo_source : String) (st : ProcState) :
    Except ProcState (ℕ × ProcState) :=
  match env.stream_doc f with
  | none => .ok (0, st)
  | some doc =>
    if env.doc_write_error [doc] then .error st
    else
      let st1 : ProcState :=
        { st with sqlite := write_documents_to_sqlite [doc] repo_id st.sqlite }
      match env.chunk_docs doc with
      | .error _ => .error st1
      | .ok doc_chunks =>
        (chunksOf 50 doc_chunks).foldl (write_subbatch_step env repo_id repo_source)
          (Except.ok (0, st1))

/-- `_process_large_files`: one file at a time, each wrapped in its own
catch; a file counts only when it produced chunks. -/
def process_large_files (env : ProcEnv) (files : List FileClassification)
    (repo_id repo_source : String) (st : ProcState) : ProcState × ℕ × ℕ :=
  files.foldl
    (fun acc fc =>
      let (st, tf, tc) := acc
      match stream_process_file env fc.path repo_id repo_source st with
      | .ok (n, st') => if 0 < n then (st', tf + 1, tc + n) else (st', tf, tc)
      | .error st' => (st', tf, tc))
    (st, 0, 0)

/-- `_advanced_stream_process_file` (EXTRA_LARGE tier): same write loop
with sub-batches of 25, but with its own catch returning 0 (partial
writes kept). -/
def advanced_stream_process_file (env : ProcEnv) (f : FileEntry)
    (repo_id repo_source : String) (st : ProcState) : ℕ × ProcState :=
  match env.mmap_doc f with
  | none => (0, st)
  | some doc =>
    if env.doc_write_error [doc] then (0, st)
    else
      let st1 : ProcState :=
        { st with sqlite := write_documents_to_sqlite [doc] repo_id st.sqlite }
      match env.chunk_docs doc with
      | .error _ => (0, st1)
      | .ok doc_chunks =>
        let r := (chunksOf 25 doc_chunks).foldl
          (write_subbatch_step env repo_id repo_source) (Except.ok (0, st1))
        match r with
        | .ok p => p
        | .error st' => (0, st')

/-- `_process_xlarge_files`. -/
def process_xlarge_files (env : ProcEnv) (files : List FileClassification)
    (repo_id repo_source : String) (st : ProcState) : ProcState × ℕ × ℕ :=
  files.foldl
    (fun acc fc =>
      let (st, tf, tc) := acc
      let (n, st') := advanced_stream_process_file env fc.path repo_id repo_source st
      if 0 < n then (st', tf + 1, tc + n) else (st', tf, tc))
    (st, 0, 0)

/-- The body of `process_repository_adaptive`'s `try`: `.error` is an
exception reaching the top-level handler. -/
def process_repository_body (env : ProcEnv) (repo_source repo_type : String)
    (files : List FileEntry) (st : ProcState) : Except ProcState ProcState :=
  if env.enumerate_error then .error st
  else
    let file_paths := files.filter fun f => should_process_file f
    if file_paths = [] then .ok st
    else
      let repo_id := generate_repo_id repo_source
      let small_medium := classify_files file_paths FileSize.SMALL ++
        classify_files file_paths FileSize.MEDIUM
      let r1 := if small_medium ≠ [] then
          process_small_medium_files env small_medium repo_source repo_id st
        else (st, 0, 0)
      let large := classify_files file_paths FileSize.LARGE
      let r2 := if large ≠ [] then
          process_large_files env large repo_id repo_source r1.1
        else (r1.1, 0, 0)
      let xl := classify_files file_paths FileSize.EXTRA_LARGE
      let r3 := if xl ≠ [] then
          process_xlarge_files env xl repo_id repo_source r2.1
        else (r2.1, 0, 0)
      if env.metadata_write_error then .error r3.1
      else
        .ok { r3.1 with sqlite := (update_repository_metadata repo_id repo_source
          repo_type (r1.2.1 + r2.2.1 + r3.2.1) (r1.2.2 + r2.2.2 + r3.2.2) r3.1.sqlite) }

/-- `process_repository_adaptive`: the top-level `try`/`except` turns any
escaping exception into `False`; both normal exits return `True`. -/
def process_repository_adaptive (env : ProcEnv) (repo_source repo_type : String)
    (files : List FileEntry) (st : ProcState) : Bool × ProcState :=
  match process_repository_body env repo_source repo_type files st with
  | .ok st' => (true, st')
  | .error st' => (false, st')

/-! ## Theorems -/

/-- Replace-by-key: after an upsert, the rows with the inserted row's key
are exactly the inserted row. -/
theorem filter_upsertBy {κ : Type} [DecidableEq κ] (key : α → κ) (row : α)
    (rows : List α) :
    (upsertBy key row rows).filter (fun r => key r = key row) = [row] := by
  unfold upsertBy
  rw [List.filter_append]
  have h1 : (rows.filter fun r => key r ≠ key row).filter
      (fun r => key r = key row) = [] := by
    rw [List.filter_eq_nil_iff]
    intro a ha
    have := List.of_mem_filter ha
    simp only [decide_eq_true_eq] at this ⊢
    exact fun h => this h
  rw [h1]
  simp

/-- If the gate lets a file through, none of the four content conditions
held. -/
theorem should_process_file_true_conditions (f : FileEntry)
    (h : should_process_file f = true) :
    f.content.length ≤ hard_size_ceiling ∧ f.content.length ≠ 0 ∧
    (0 : ℕ) ∉ f.content.take 1024 ∧
    ¬ ((printable_count (f.content.take 1024) : ℚ) /
        ((f.content.take 1024).length : ℚ) < 7 / 10) := by
  unfold should_process_file at h
  split at h
  · exact absurd h (by simp)
  split at h
  · exact absurd h (by simp)
  split at h
  · exact absurd h (by simp)
  split at h
  · exact absurd h (by simp)
  split at h
  · exact absurd h (by simp)
  split at h
  · exact absurd h (by simp)
  split at h
  · exact absurd h (by simp)
  rename_i h5 h6
  have h' : (if (f.content.take 1024) ≠ [] ∧ (f.content.take 1024).contains 0 = true
        then false
      else if (f.content.take 1024) ≠ [] ∧
          ((printable_count (f.content.take 1024) : ℚ) /
            ((f.content.take 1024).length : ℚ) < 7 / 10) then false
      else true) = true := h
  have hne : f.content.take 1024 ≠ [] := by
    rw [Ne, List.take_eq_nil_iff]
    push_neg
    exact ⟨by omega, fun hc => h6 (by simp [hc])⟩
  split at h'
  · exact absurd h' (by simp)
  rename_i h7
  split at h'
  · exact absurd h' (by simp)
  rename_i h8
  exact ⟨by omega, h6, fun hmem => h7 ⟨hne, by simpa using hmem⟩,
    fun hlt => h8 ⟨hne, hlt⟩⟩

/-- C9: the "should process" pre-filter gate rejects any file whose size
exceeds the 100MB hard ceiling, any zero-byte file, any file whose first
1KB sample contains a NUL byte, and any file whose sample has a
printable-character ratio below 0.7; a rejected file is excluded before
classification or extraction is reached. -/
theorem should_process_gate_rejects (f : FileEntry) :
    (hard_size_ceiling < f.content.length → should_process_file f = false) ∧
    (f.content.length = 0 → should_process_file f = false) ∧
    ((0 : ℕ) ∈ f.content.take 1024 → should_process_file f = false) ∧
    ((printable_count (f.content.take 1024) : ℚ) /
        ((f.content.take 1024).length : ℚ) < 7 / 10 →
      should_process_file f = false) := by
  refine ⟨fun h => ?_, fun h => ?_, fun h => ?_, fun h => ?_⟩ <;>
    (cases hsp : should_process_file f with
     | false => rfl
     | true =>
        obtain ⟨h1, h2, h3, h4⟩ := should_process_file_true_conditions f hsp
        first
          | exact absurd h (by omega)
          | exact absurd h h3
          | exact absurd h h4)

/-- Witness for C9 at concrete files: an oversized file, an empty file, a
file with a NUL in its sample, and a low-printable-ratio file are all
rejected. -/
theorem should_process_gate_rejects_witness :
    should_process_file ⟨["big.txt"], "big.txt", ".txt",
        List.replicate 104857601 65, 0, 0, false⟩ = false ∧
    should_process_file ⟨["empty.txt"], "empty.txt", ".txt", [], 0, 0, false⟩ = false ∧
    should_process_file ⟨["nul.txt"], "nul.txt", ".txt", [65, 0, 65], 0, 0, false⟩ = false ∧
    should_process_file ⟨["bin.txt"], "bin.txt", ".txt", [1, 2, 3], 0, 0, false⟩ = false :=
  ⟨(should_process_gate_rejects _).1 (by
      show hard_size_ceiling < (List.replicate 104857601 65).length
      rw [List.length_replicate]
      norm_num [hard_size_ceiling]),
   (should_process_gate_rejects _).2.1 (by simp),
   (should_process_gate_rejects _).2.2.1 (by decide),
   (should_process_gate_rejects _).2.2.2 (by norm_num [printable_count])⟩

/-- C8: the size classifier puts everything strictly below 1MB in SMALL,
exactly 1MB in MEDIUM, exactly 50MB in LARGE, and exactly 500MB in
EXTRA_LARGE. -/
theorem size_tier_boundaries :
    (∀ n : ℕ, n < 1048576 → get_size_category n = FileSize.SMALL) ∧
    get_size_category 1048576 = FileSize.MEDIUM ∧
    get_size_category (50 * 1048576) = FileSize.LARGE ∧
    get_size_category (500 * 1048576) = FileSize.EXTRA_LARGE := by
  refine ⟨fun n h => ?_, by norm_num [get_size_category],
    by norm_num [get_size_category], by norm_num [get_size_category]⟩
  have h1 : ((n : ℚ)) / 1048576 < 1 := by
    rw [div_lt_one (by norm_num)]
    exact_mod_cast h
  simp [get_size_category, h1]

/-- Witness for C8's universally quantified clause at a concrete size. -/
theorem size_tier_boundaries_witness :
    get_size_category 5 = FileSize.SMALL :=
  size_tier_boundaries.1 5 (by norm_num)

/-- C4: an online source is always reported changed; a local source is
reported changed on an empty fingerprint, on any error, on a missing
stored fingerprint, or on a mismatch; it is unchanged exactly when the
stored fingerprint equals the freshly computed (nonempty) one; and the
change check returns precisely the sources needing update. -/
theorem change_check_fail_open (env : ChangeEnv) (s : String) :
    (is_online s = true → source_needs_update env s = true) ∧
    (source_needs_update env s = false ↔
      (is_online s = false ∧ ∃ cur, cur ≠ "" ∧ env.calc_result s = .ok cur ∧
        env.stored_hash (generate_repo_id s) = .ok (some cur))) ∧
    (∀ sources : List String, s ∈ check_repository_changes env sources ↔
      (s ∈ sources ∧ source_needs_update env s = true)) := by
  refine ⟨fun h => by simp [source_needs_update, h], ?_, ?_⟩
  · constructor
    · intro hfalse
      unfold source_needs_update at hfalse
      split at hfalse
      · exact absurd hfalse (by simp)
      rename_i honline
      rcases hc : env.calc_result s with e | cur <;> simp only [hc] at hfalse
      · exact absurd hfalse (by simp)
      split at hfalse
      · exact absurd hfalse (by simp)
      rename_i hcur
      rcases hs : env.stored_hash (generate_repo_id s) with e | stored <;>
        simp only [hs] at hfalse
      · exact absurd hfalse (by simp)
      split at hfalse
      · exact absurd hfalse (by simp)
      rename_i hne
      rw [not_not] at hne
      subst hne
      refine ⟨?_, cur, hcur, rfl, rfl⟩
      simpa using honline
    · rintro ⟨honline, cur, hcur, hc, hs⟩
      simp [source_needs_update, honline, hc, hcur, hs]
  · intro sources
    simp [check_repository_changes, List.mem_filter]

/-- Witness for C4 with a concrete environment: an online source reports
changed, a matching local source reports unchanged, and the returned
update list is the filtered source list. -/
theorem change_check_fail_open_witness :
    source_needs_update ⟨fun _ => .ok "abc", fun _ => .ok (some "abc")⟩
        "http://example.com/r.git" = true ∧
    (source_needs_update ⟨fun _ => .ok "abc", fun _ => .ok (some "abc")⟩
        "/repos/local" = false ↔
      (is_online "/repos/local" = false ∧ ∃ cur, cur ≠ "" ∧
        (Except.ok "abc" : Except Unit String) = .ok cur ∧
        (Except.ok (some "abc") : Except Unit (Option String)) = .ok (some cur))) ∧
    ("/repos/local" ∈ check_repository_changes
        ⟨fun _ => .ok "abc", fun _ => .ok (some "abc")⟩ ["/repos/local"] ↔
      ("/repos/local" ∈ ["/repos/local"] ∧ source_needs_update
        ⟨fun _ => .ok "abc", fun _ => .ok (some "abc")⟩ "/repos/local" = true)) :=
  ⟨(change_check_fail_open _ _).1 (by decide),
   (change_check_fail_open ⟨fun _ => .ok "abc", fun _ => .ok (some "abc")⟩
     "/repos/local").2.1,
   (change_check_fail_open ⟨fun _ => .ok "abc", fun _ => .ok (some "abc")⟩
     "/repos/local").2.2 ["/repos/local"]⟩

/-- C6: the relational deletion removes chunks, then documents, then the
repository row inside one transaction — on a relational failure nothing
changes and the error propagates; the subsequent vector-store deletion is
best-effort: its failure is swallowed and does not undo the relational
deletes. -/
theorem delete_repository_transactional (repo_id : String) (se qe : Bool)
    (db : SqliteDb) (store : List QPoint) :
    (se = true →
      delete_repository_data repo_id se qe db store =
        ⟨db, store, true, []⟩) ∧
    (se = false →
      (delete_repository_data repo_id se qe db store).raised = false ∧
      (delete_repository_data repo_id se qe db store).committed_stmts =
        [SqlStmt.delete_chunks repo_id, SqlStmt.delete_documents repo_id,
          SqlStmt.delete_repository repo_id] ∧
      (delete_repository_data repo_id se qe db store).db.chunks =
        db.chunks.filter (fun c => c.repo_id ≠ repo_id) ∧
      (delete_repository_data repo_id se qe db store).db.documents =
        db.documents.filter (fun d => d.repo_id ≠ repo_id) ∧
      (delete_repository_data repo_id se qe db store).db.repositories =
        db.repositories.filter (fun r => r.id ≠ repo_id) ∧
      (qe = true → (delete_repository_data repo_id se qe db store).qdrant = store) ∧
      (qe = false → (delete_repository_data repo_id se qe db store).qdrant =
        store.filter (fun p => p.repo_id ≠ repo_id))) := by
  constructor
  · intro h
    simp [delete_repository_data, h]
  · intro h
    cases qe <;> simp [delete_repository_data, h, apply_stmt]

/-- Witness for C6 at a concrete database: one row per table for the
deleted repo and one for another repo; both failure modes exercised. -/
theorem delete_repository_transactional_witness :
    (delete_repository_data "r1" true false
        ⟨[⟨"r1", "s", "local", 1, 1, none⟩], [], []⟩ [] =
      ⟨⟨[⟨"r1", "s", "local", 1, 1, none⟩], [], []⟩, [], true, []⟩) ∧
    (delete_repository_data "r1" false false
        ⟨[⟨"r1", "s", "local", 1, 1, none⟩, ⟨"r2", "t", "local", 1, 1, none⟩], [], []⟩
        [⟨7, [1], "c", "r1", "s", "m", 1⟩, ⟨8, [1], "c", "r2", "t", "m", 1⟩]).raised
      = false :=
  ⟨(delete_repository_transactional "r1" true false _ _).1 rfl,
   ((delete_repository_transactional "r1" false false _ _).2 rfl).1⟩

/-- A single element always forms one chunk. -/
theorem chunksOf_single (n : ℕ) (hn : 1 ≤ n) (a : α) : chunksOf n [a] = [[a]] := by
  unfold chunksOf
  have h1 : (([a] : List α).length + n - 1) / n = 1 := by
    simp only [List.length_cons, List.length_nil]
    rw [Nat.add_comm, Nat.add_sub_cancel, Nat.div_self (by omega)]
  rw [h1]
  simp [List.range_succ, List.take_of_length_le (by simpa using hn : ([a] : List α).length ≤ n)]

/-- C7: relational writes are idempotent replaces keyed by primary id —
writing a document twice under one id leaves exactly the one latest row;
`chunk_hash` is a function of the chunk text alone (same text, same hash,
whatever the parent document or position); and writing the same chunk
text twice for one document leaves a single row keyed
`doc_id:chunk_hash`. -/
theorem idempotent_replace_writes :
    (∀ (db : SqliteDb) (repo_id : String) (d1 d2 : Document),
      d1.doc_uuid = d2.doc_uuid → d1.file_hash ≠ "" → d2.file_hash ≠ "" →
      (write_documents_to_sqlite [d2] repo_id
          (write_documents_to_sqlite [d1] repo_id db)).documents.filter
        (fun r => r.id = d2.doc_uuid) =
        [⟨d2.doc_uuid, repo_id, d2.file_path, d2.file_hash,
          content_preview d2.content⟩]) ∧
    (∀ (doc1 doc2 : Document) (content : String) (n1 n2 : ℕ),
      (Chunk.from_document doc1 content n1).chunk_hash =
        (Chunk.from_document doc2 content n2).chunk_hash) ∧
    (∀ (db : SqliteDb) (repo_id : String) (doc : Document) (content : String)
      (n1 n2 : ℕ),
      (write_chunks_to_sqlite [Chunk.from_document doc content n2] repo_id
          (write_chunks_to_sqlite [Chunk.from_document doc content n1] repo_id
            db)).chunks.filter
        (fun r => r.id = doc.doc_uuid ++ ":" ++ md5HexOfString content) =
        [chunk_row repo_id (Chunk.from_document doc content n2)]) := by
  have hdoc : ∀ (d : Document), d.file_hash ≠ "" → ∀ (repo_id : String)
      (db : SqliteDb), write_documents_to_sqlite [d] repo_id db =
      { db with documents := (upsertBy DocRow.id
          ⟨d.doc_uuid, repo_id, d.file_path, d.file_hash, content_preview d.content⟩
          db.documents) } := by
    intro d hd repo_id db
    unfold write_documents_to_sqlite
    rw [if_neg (by simp)]
    rw [show ([d].filter fun x => x.file_hash ≠ "") = [d] by simp [hd]]
    rfl
  have hchunk : ∀ (c : Chunk) (repo_id : String) (db : SqliteDb),
      write_chunks_to_sqlite [c] repo_id db =
      { db with chunks := upsertBy ChunkRow.id (chunk_row repo_id c) db.chunks } := by
    intro c repo_id db
    unfold write_chunks_to_sqlite
    rw [if_neg (by simp)]
    rfl
  refine ⟨?_, fun doc1 doc2 content n1 n2 => rfl, ?_⟩
  · intro db repo_id d1 d2 hid h1 h2
    rw [hdoc d1 h1, hdoc d2 h2]
    have e1 := filter_upsertBy DocRow.id
      ⟨d2.doc_uuid, repo_id, d2.file_path, d2.file_hash, content_preview d2.content⟩
      (upsertBy DocRow.id
        ⟨d1.doc_uuid, repo_id, d1.file_path, d1.file_hash,
          content_preview d1.content⟩ db.documents)
    simpa using e1
  · intro db repo_id doc content n1 n2
    rw [hchunk, hchunk]
    have e1 := filter_upsertBy ChunkRow.id
      (chunk_row repo_id (Chunk.from_document doc content n2))
      (upsertBy ChunkRow.id (chunk_row repo_id (Chunk.from_document doc content n1))
        db.chunks)
    simpa [chunk_row, Chunk.from_document] using e1

/-- Witness for C7 on a concrete database and documents. -/
theorem idempotent_replace_writes_witness :
    (write_documents_to_sqlite [⟨"u1", "new", "a.py", "h2", "repo", none⟩] "r"
        (write_documents_to_sqlite [⟨"u1", "old", "a.py", "h1", "repo", none⟩] "r"
          ⟨[], [], []⟩)).documents.filter (fun r => r.id = "u1") =
      [⟨"u1", "r", "a.py", "h2", content_preview "new"⟩] ∧
    (Chunk.from_document ⟨"u1", "c", "a.py", "h1", "repo", none⟩ "text" 0).chunk_hash =
      (Chunk.from_document ⟨"u2", "d", "b.py", "h2", "other", none⟩ "text" 5).chunk_hash :=
  ⟨idempotent_replace_writes.1 ⟨[], [], []⟩ "r" ⟨"u1", "old", "a.py", "h1", "repo", none⟩
      ⟨"u1", "new", "a.py", "h2", "repo", none⟩ rfl (by decide) (by decide),
   idempotent_replace_writes.2.1 ⟨"u1", "c", "a.py", "h1", "repo", none⟩
      ⟨"u2", "d", "b.py", "h2", "other", none⟩ "text" 0 5⟩

/-- C5 fails as stated: the Qdrant point id is `abs(hash(...)) % 2**31`
with Python's builtin `hash`, which CPython salts with a fresh random
value in every process (PYTHONHASHSEED is never pinned by this code).
Within one run the hash function is fixed, so the claim's quantification
over "different runs of the program" becomes quantification over the
possible per-run hash functions, and two runs can disagree. -/
theorem point_id_not_stable_across_runs :
    ¬ ∀ (h1 h2 : String → ℤ),
      mk_point_id h1 "repo_a" "doc1:c1" = mk_point_id h2 "repo_a" "doc1:c1" := by
  intro h
  have := h (fun _ => 0) (fun _ => 1)
  simp [mk_point_id] at this

/-- C5 (amended): within a single run the point id is a deterministic
function of `(repo_id, chunk_id)`, and a second write of the same chunk
for the same repository overwrites the existing point rather than
duplicating it. -/
theorem point_id_deterministic_within_run (pyhash : String → ℤ)
    (repo_id rs1 rs2 : String) (e1 e2 : Embedding) (store : List QPoint)
    (hid : e1.chunk_id = e2.chunk_id) (hc : e2.chunk_id ≠ "")
    (hv1 : e1.vector ≠ []) (hv2 : e2.vector ≠ []) :
    mk_point_id pyhash repo_id e1.chunk_id = mk_point_id pyhash repo_id e2.chunk_id ∧
    (write_embeddings_to_qdrant pyhash [e2] repo_id rs2
        (write_embeddings_to_qdrant pyhash [e1] repo_id rs1 store)).filter
      (fun p => p.id = mk_point_id pyhash repo_id e2.chunk_id) =
      [⟨mk_point_id pyhash repo_id e2.chunk_id, e2.vector, e2.chunk_id, repo_id, rs2,
        e2.model_name, e2.size⟩] := by
  constructor
  · rw [hid]
  · have hc1 : e1.chunk_id ≠ "" := hid ▸ hc
    have hw : ∀ (e : Embedding) (rs : String) (st : List QPoint),
        e.vector ≠ [] → e.chunk_id ≠ "" →
        write_embeddings_to_qdrant pyhash [e] repo_id rs st =
          upsertBy QPoint.id
            ⟨mk_point_id pyhash repo_id e.chunk_id, e.vector, e.chunk_id, repo_id, rs,
              e.model_name, e.size⟩ st := by
      intro e rs st hv hcid
      unfold write_embeddings_to_qdrant
      rw [if_neg (by simp)]
      rw [show ([e].filter fun e => e.vector ≠ [] ∧ e.chunk_id ≠ "") = [e] by
        simp [hv, hcid]]
      rw [if_neg (by simp)]
      simp only [List.map_cons, List.map_nil, chunksOf_single 100 (by norm_num),
        List.foldl_cons, List.foldl_nil, upsert_points]
    rw [hw e1 rs1 store hv1 hc1, hw e2 rs2 _ hv2 hc]
    have := filter_upsertBy QPoint.id
      ⟨mk_point_id pyhash repo_id e2.chunk_id, e2.vector, e2.chunk_id, repo_id, rs2,
        e2.model_name, e2.size⟩
      (upsertBy QPoint.id
        ⟨mk_point_id pyhash repo_id e1.chunk_id, e1.vector, e1.chunk_id, repo_id, rs1,
          e1.model_name, e1.size⟩ store)
    simpa using this

/-- Witness for the amended C5 at concrete values. -/
theorem point_id_deterministic_within_run_witness :
    mk_point_id (fun s => (s.length : ℤ)) "repo_a" "d:c1" =
      mk_point_id (fun s => (s.length : ℤ)) "repo_a" "d:c1" ∧
    (write_embeddings_to_qdrant (fun s => (s.length : ℤ))
        [⟨[(2 : ℚ)], "d:c1", "m", 1⟩] "repo_a" "src2"
        (write_embeddings_to_qdrant (fun s => (s.length : ℤ))
          [⟨[(1 : ℚ)], "d:c1", "m", 1⟩] "repo_a" "src1" [])).filter
      (fun p => p.id = mk_point_id (fun s => (s.length : ℤ)) "repo_a" "d:c1") =
      [⟨mk_point_id (fun s => (s.length : ℤ)) "repo_a" "d:c1", [(2 : ℚ)], "d:c1",
        "repo_a", "src2", "m", 1⟩] :=
  point_id_deterministic_within_run (fun s => (s.length : ℤ)) "repo_a" "src1" "src2"
    ⟨[(1 : ℚ)], "d:c1", "m", 1⟩ ⟨[(2 : ℚ)], "d:c1", "m", 1⟩ [] rfl (by decide)
    (by decide) (by decide)

/-- Acceptance condition of `EmbeddingService.generate` for one returned
vector: it converts to a finite-float list of exactly the expected
dimension. -/
def vector_valid (dim : ℕ) (v : List PyVal) : Bool :=
  match process_vector v with
  | none => false
  | some pv => pv.length = dim

/-- The filterMap core of `generate` preserves exactly the valid
vectors. -/
theorem generate_zip_length (dim : ℕ) (model_name : String) :
    ∀ (chunks : List Chunk) (vectors : List (List PyVal)),
      vectors.length = chunks.length →
      ((chunks.zip vectors).filterMap fun cv =>
        match process_vector cv.2 with
        | none => none
        | some pv =>
          if pv.length ≠ dim then none
          else some { vector := pv
                      chunk_id := cv.1.doc_id ++ ":" ++ cv.1.chunk_hash
                      model_name := model_name
                      size := pv.length : Embedding }).length =
        (vectors.filter (vector_valid dim)).length := by
  intro chunks
  induction chunks with
  | nil =>
    intro vectors hlen
    rw [show vectors = [] from List.length_eq_zero.mp (by simpa using hlen)]
    rfl
  | cons c cs ih =>
    intro vectors hlen
    cases vectors with
    | nil => simp at hlen
    | cons v vs =>
      have hvs : vs.length = cs.length := by simpa using hlen
      simp only [List.zip_cons_cons, List.filterMap_cons, List.filter_cons]
      rcases hp : process_vector v with _ | pv
      · have hval : vector_valid dim v = false := by simp [vector_valid, hp]
        simp only [hval, Bool.false_eq_true, if_false]
        exact ih vs hvs
      · by_cases hd : pv.length = dim
        · have hval : vector_valid dim v = true := by simp [vector_valid, hp, hd]
          simp only [hval, if_true, hd, ne_eq, not_true_eq_false, if_false,
            List.length_cons]
          rw [ih vs hvs]
        · have hval : vector_valid dim v = false := by simp [vector_valid, hp, hd]
          simp only [hval, Bool.false_eq_true, if_false, hd, ne_eq,
            not_false_eq_true, if_true]
          exact ih vs hvs

/-- Ten chunks of one document, as used by the spec's 10-chunk scenario. -/
def c2_chunks : List Chunk :=
  [⟨"t0", "d", "h0", 2, none⟩, ⟨"t1", "d", "h1", 2, none⟩,
   ⟨"t2", "d", "h2", 2, none⟩, ⟨"t3", "d", "h3", 2, none⟩,
   ⟨"t4", "d", "h4", 2, none⟩, ⟨"t5", "d", "h5", 2, none⟩,
   ⟨"t6", "d", "h6", 2, none⟩, ⟨"t7", "d", "h7", 2, none⟩,
   ⟨"t8", "d", "h8", 2, none⟩, ⟨"t9", "d", "h9", 2, none⟩]

/-- Ten returned vectors (expected dimension 3): the fourth contains a
NaN and the eighth has the wrong length, the other eight are valid. -/
def c2_vectors : List (List PyVal) :=
  [[.fin 1, .fin 2, .fin 3], [.fin 1, .fin 2, .fin 3],
   [.fin 1, .fin 2, .fin 3], [.fin 1, .nan, .fin 2],
   [.fin 1, .fin 2, .fin 3], [.fin 1, .fin 2, .fin 3],
   [.fin 1, .fin 2, .fin 3], [.fin 1, .fin 2],
   [.fin 1, .fin 2, .fin 3], [.fin 1, .fin 2, .fin 3]]

/-- A concrete per-run string hash for the scenario (the last byte of the
string, which separates the ten chunk ids). -/
def c2_pyhash : String → ℤ := fun s => ((utf8Bytes s).getLastD 0 : ℤ)

/-- C2: `generate` drops exactly the invalid vectors (NaN, infinite,
empty, non-convertible, or wrong dimension), one by one — every valid
vector still yields its embedding, so an invalid vector never aborts the
batch; in the 10-chunk scenario with 2 invalid vectors, 8 embeddings are
produced and stored as 8 points while all 10 chunks are stored as rows
(chunk persistence is not gated by embedding validity). -/
theorem embedding_validation_drops_individually :
    (∀ (dim : ℕ) (mn : String) (chunks : List Chunk) (vectors : List (List PyVal)),
      vectors.length = chunks.length → chunks ≠ [] →
      (service_generate dim mn chunks vectors).length =
        (vectors.filter (vector_valid dim)).length) ∧
    (∀ (dim : ℕ) (mn : String) (chunks : List Chunk) (vectors : List (List PyVal))
      (c : Chunk) (v : List PyVal) (pv : List ℚ),
      vectors.length = chunks.length → (c, v) ∈ chunks.zip vectors →
      process_vector v = some pv → pv.length = dim →
      ({ vector := pv, chunk_id := c.doc_id ++ ":" ++ c.chunk_hash,
         model_name := mn, size := pv.length } : Embedding) ∈
        service_generate dim mn chunks vectors) ∧
    ((service_generate 3 "m" c2_chunks c2_vectors).length = 8 ∧
     (write_chunks_to_sqlite c2_chunks "r" ⟨[], [], []⟩).chunks.length = 10 ∧
     (write_embeddings_to_qdrant c2_pyhash
        (service_generate 3 "m" c2_chunks c2_vectors) "r" "s" []).length = 8) := by
  refine ⟨?_, ?_, by decide, by decide, by decide⟩
  · intro dim mn chunks vectors hlen hch
    have hv : vectors ≠ [] := by
      intro h
      rw [h] at hlen
      exact hch (List.length_eq_zero.mp hlen.symm)
    unfold service_generate
    rw [if_neg hch, if_neg hv, if_neg (by simp [hlen])]
    exact generate_zip_length dim mn chunks vectors hlen
  · intro dim mn chunks vectors c v pv hlen hmem hp hd
    have hcv := List.of_mem_zip hmem
    have hch : chunks ≠ [] := List.ne_nil_of_mem hcv.1
    have hv : vectors ≠ [] := List.ne_nil_of_mem hcv.2
    unfold service_generate
    rw [if_neg hch, if_neg hv, if_neg (by simp [hlen])]
    exact List.mem_filterMap.mpr ⟨(c, v), hmem, by simp [hp, hd]⟩

/-- Witness for C2's quantified clauses at the scenario input. -/
theorem embedding_validation_drops_individually_witness :
    (service_generate 3 "m" c2_chunks c2_vectors).length =
      (c2_vectors.filter (vector_valid 3)).length ∧
    ({ vector := [1, 2, 3], chunk_id := "d" ++ ":" ++ "h0", model_name := "m",
       size := ([1, 2, 3] : List ℚ).length } : Embedding) ∈
      service_generate 3 "m" c2_chunks c2_vectors :=
  ⟨embedding_validation_drops_individually.1 3 "m" c2_chunks c2_vectors
      (by decide) (by decide),
   embedding_validation_drops_individually.2.1 3 "m" c2_chunks c2_vectors
      ⟨"t0", "d", "h0", 2, none⟩ [.fin 1, .fin 2, .fin 3] [1, 2, 3]
      (by decide) (by decide) (by decide) (by decide)⟩

/-- Cost of a batch grown by one file. -/
theorem batch_cost_append (l : List FileClassification) (f : FileClassification) :
    batch_cost (l ++ [f]) = batch_cost l + f.memory_requirement_mb := by
  simp [batch_cost]

/-- Invariant of the packing loop: starting from a running batch that is
empty, within budget, or a lone over-budget file, every emitted batch is
within budget or a lone over-budget file. -/
theorem pack_batches_invariant (budget_mb : ℚ) :
    ∀ (rest cur : List FileClassification) (mem : ℚ),
      mem = batch_cost cur →
      (cur = [] ∨ batch_cost cur ≤ budget_mb ∨
        ∃ f, cur = [f] ∧ budget_mb < f.memory_requirement_mb) →
      ∀ b ∈ pack_batches budget_mb rest cur mem,
        batch_cost b ≤ budget_mb ∨
          ∃ f, b = [f] ∧ budget_mb < f.memory_requirement_mb := by
  intro rest
  induction rest with
  | nil =>
    intro cur mem hmem hcur b hb
    unfold pack_batches at hb
    split at hb
    · simp at hb
    · rename_i hne
      rcases List.mem_singleton.mp hb with rfl
      rcases hcur with h | h | h
      · exact absurd h hne
      · exact .inl h
      · exact .inr h
  | cons f rest ih =>
    intro cur mem hmem hcur b hb
    unfold pack_batches at hb
    split at hb
    · rename_i hcond
      rcases List.mem_cons.mp hb with rfl | hb'
      · rcases hcur with h | h | h
        · exact absurd h hcond.2
        · exact .inl h
        · exact .inr h
      · refine ih [f] f.memory_requirement_mb (by simp [batch_cost]) ?_ b hb'
        rcases le_or_lt f.memory_requirement_mb budget_mb with h | h
        · exact .inr (.inl (by simpa [batch_cost] using h))
        · exact .inr (.inr ⟨f, rfl, h⟩)
    · rename_i hcond
      refine ih (cur ++ [f]) (mem + f.memory_requirement_mb)
        (by rw [batch_cost_append, hmem]) ?_ b hb
      rcases not_and_or.mp hcond with h | h
      · push_neg at h
        exact .inr (.inl (by rw [batch_cost_append, ← hmem]; exact h))
      · rw [not_not] at h
        subst h
        have hmem0 : mem = 0 := by simpa [batch_cost] using hmem
        rcases le_or_lt f.memory_requirement_mb budget_mb with h' | h'
        · exact .inr (.inl (by simpa [batch_cost] using h'))
        · exact .inr (.inr ⟨f, rfl, h'⟩)

/-- The packing loop emits every file exactly once, in order. -/
theorem pack_batches_flatten (budget_mb : ℚ) :
    ∀ (rest cur : List FileClassification) (mem : ℚ),
      (pack_batches budget_mb rest cur mem).flatten = cur ++ rest := by
  intro rest
  induction rest with
  | nil =>
    intro cur mem
    unfold pack_batches
    split
    · rename_i h
      simp [h]
    · simp
  | cons f rest ih =>
    intro cur mem
    unfold pack_batches
    split
    · simp [ih]
    · simp [ih]

/-- C1: every batch produced by `_create_memory_safe_batches` has total
estimated memory cost at most the budget, except a singleton holding one
file whose own cost exceeds the budget; every over-budget file still gets
its own batch (nothing is dropped: the batches flatten to a permutation
of the input), and files are considered in ascending `size_bytes`
order. -/
theorem memory_safe_batches_bounded (budget_mb : ℚ)
    (files : List FileClassification)
    (hcost : ∀ f ∈ files, f.memory_requirement_mb =
      memory_requirement_of f.size_bytes) :
    (∀ b ∈ create_memory_safe_batches budget_mb files,
      batch_cost b ≤ budget_mb ∨
        ∃ f, b = [f] ∧ budget_mb < f.memory_requirement_mb) ∧
    (create_memory_safe_batches budget_mb files).flatten = sort_by_size files ∧
    (sort_by_size files).Perm files ∧
    (sort_by_size files).Sorted (fun a b => a.size_bytes ≤ b.size_bytes) ∧
    (∀ f ∈ files, budget_mb < f.memory_requirement_mb →
      [f] ∈ create_memory_safe_batches budget_mb files) := by
  have hperm : (sort_by_size files).Perm files := List.mergeSort_perm files _
  have hflat : (create_memory_safe_batches budget_mb files).flatten =
      sort_by_size files :=
    (pack_batches_flatten budget_mb (sort_by_size files) [] 0).trans (by simp)
  have hinv : ∀ b ∈ create_memory_safe_batches budget_mb files,
      batch_cost b ≤ budget_mb ∨
        ∃ f, b = [f] ∧ budget_mb < f.memory_requirement_mb :=
    pack_batches_invariant budget_mb (sort_by_size files) [] 0
      (by simp [batch_cost]) (.inl rfl)
  refine ⟨hinv, hflat, hperm, ?_, ?_⟩
  · have hs := @List.sorted_mergeSort FileClassification
      (fun a b : FileClassification => decide (a.size_bytes ≤ b.size_bytes))
      (fun a b c hab hbc => by
        simp only [decide_eq_true_eq] at *
        omega)
      (fun a b => by
        simp only [Bool.or_eq_true, decide_eq_true_eq]
        omega)
      files
    exact hs.imp fun h => by simpa using h
  · intro f hf hover
    have hnn : ∀ g ∈ files, 0 ≤ g.memory_requirement_mb := by
      intro g hg
      rw [hcost g hg]
      unfold memory_requirement_of
      positivity
    have hfs : f ∈ (create_memory_safe_batches budget_mb files).flatten := by
      rw [hflat]
      exact hperm.mem_iff.mpr hf
    obtain ⟨b, hb, hfb⟩ := List.mem_flatten.mp hfs
    rcases hinv b hb with hle | ⟨g, rfl, hg⟩
    · exfalso
      have hmem : f.memory_requirement_mb ∈
          b.map (fun x => x.memory_requirement_mb) := List.mem_map_of_mem _ hfb
      have hge : ∀ x ∈ b.map (fun x => x.memory_requirement_mb), 0 ≤ x := by
        intro x hx
        obtain ⟨g, hgb, rfl⟩ := List.mem_map.mp hx
        refine hnn g (hperm.mem_iff.mp ?_)
        rw [← hflat]
        exact List.mem_flatten.mpr ⟨b, hb, hgb⟩
      have := List.single_le_sum hge _ hmem
      rw [show (b.map fun x => x.memory_requirement_mb).sum = batch_cost b from rfl]
        at this
      linarith
    · rcases List.mem_singleton.mp hfb with rfl
      exact hb

/-- Witness for C1 at a concrete file list: budget 10MB, costs 3MB, 9MB
and 15MB — the 15MB file exceeds the budget and sits alone. -/
theorem memory_safe_batches_bounded_witness :
    (∀ b ∈ create_memory_safe_batches 10
        [classify_file ⟨["a"], "a", "", List.replicate 1048576 1, 0, 0, false⟩,
         classify_file ⟨["b"], "b", "", List.replicate 3145728 1, 0, 0, false⟩,
         classify_file ⟨["c"], "c", "", List.replicate 5242880 1, 0, 0, false⟩],
      batch_cost b ≤ 10 ∨ ∃ f, b = [f] ∧ 10 < f.memory_requirement_mb) ∧
    (∀ f ∈ [classify_file ⟨["a"], "a", "", List.replicate 1048576 1, 0, 0, false⟩,
            classify_file ⟨["b"], "b", "", List.replicate 3145728 1, 0, 0, false⟩,
            classify_file ⟨["c"], "c", "", List.replicate 5242880 1, 0, 0, false⟩],
      (10 : ℚ) < f.memory_requirement_mb →
      [f] ∈ create_memory_safe_batches 10
        [classify_file ⟨["a"], "a", "", List.replicate 1048576 1, 0, 0, false⟩,
         classify_file ⟨["b"], "b", "", List.replicate 3145728 1, 0, 0, false⟩,
         classify_file ⟨["c"], "c", "", List.replicate 5242880 1, 0, 0, false⟩]) :=
  ⟨(memory_safe_batches_bounded 10 _ (by
      intro f hf
      simp only [List.mem_cons, List.mem_singleton] at hf
      rcases hf with rfl | rfl | rfl | h
      · rfl
      · rfl
      · rfl
      · exact absurd h (List.not_mem_nil f))).1,
   (memory_safe_batches_bounded 10 _ (by
      intro f hf
      simp only [List.mem_cons, List.mem_singleton] at hf
      rcases hf with rfl | rfl | rfl | h
      · rfl
      · rfl
      · rfl
      · exact absurd h (List.not_mem_nil f))).2.2.2.2⟩

/-- C10: when the repository path yields no processable files the entry
point returns success without touching either store, and no exception
ever escapes it — the result is `false` exactly when one of the two
failure points outside the per-file/per-batch handlers (the traversal,
or the final repository-metadata write) raises. -/
theorem process_repository_guarded (env : ProcEnv) (repo_source repo_type : String)
    (files : List FileEntry) (st : ProcState) :
    (env.enumerate_error = false → files.filter should_process_file = [] →
      process_repository_adaptive env repo_source repo_type files st = (true, st)) ∧
    ((process_repository_adaptive env repo_source repo_type files st).1 = false ↔
      env.enumerate_error = true ∨
        (files.filter should_process_file ≠ [] ∧
          env.metadata_write_error = true)) := by
  constructor
  · intro he hf
    simp [process_repository_adaptive, process_repository_body, he, hf]
  · cases he : env.enumerate_error with
    | true => simp [process_repository_adaptive, process_repository_body, he]
    | false =>
      by_cases hf : files.filter should_process_file = []
      · simp [process_repository_adaptive, process_repository_body, he, hf]
      · cases hm : env.metadata_write_error with
        | true =>
          simp [process_repository_adaptive, process_repository_body, he, hf, hm]
        | false =>
          simp [process_repository_adaptive, process_repository_body, he, hf, hm]

/-- A concrete environment for the C10 witness. -/
def c10_env : ProcEnv :=
  { pyhash := fun _ => 0
    budget_mb := 0
    load := fun _ => none
    chunk_docs := fun _ => .ok []
    embed := fun _ => .ok []
    stream_doc := fun _ => none
    mmap_doc := fun _ => none }

/-- Witness for C10: a repository containing only a `.git`-internal file
yields no processable files; processing succeeds and writes nothing. -/
theorem process_repository_guarded_witness :
    process_repository_adaptive c10_env "/repos/r" "local"
      [⟨[".git", "conf"], "conf", "", [65], 0, 0, false⟩] ⟨⟨[], [], []⟩, []⟩ =
      (true, ⟨⟨[], [], []⟩, []⟩) :=
  (process_repository_guarded c10_env "/repos/r" "local" _ _).1 rfl (by decide)

/-- `leBytes` always produces `k` bytes. -/
theorem leBytes_length : ∀ (k n : ℕ), (leBytes k n).length = k := by
  intro k
  induction k with
  | zero => intro n; rfl
  | succ k ih => intro n; simp [leBytes, ih]

/-- An MD5 digest is 16 bytes. -/
theorem md5Bytes_length (msg : List ℕ) : (md5Bytes msg).length = 16 := by
  simp [md5Bytes, leBytes_length]

/-- An MD5 hex digest is 32 characters. -/
theorem md5Hex_data_length (msg : List ℕ) : (md5Hex msg).data.length = 32 := by
  show ((md5Bytes msg).flatMap fun b => [hexDigit (b / 16), hexDigit (b % 16)]).length
    = 32
  have h2 : (List.length ∘ fun b : ℕ => [hexDigit (b / 16), hexDigit (b % 16)]) =
      fun _ => 2 := by
    funext b
    simp
  rw [List.length_flatMap, h2, List.map_const', List.sum_replicate, md5Bytes_length,
    smul_eq_mul]

/-- An MD5 hex digest is 32 characters (String.length form). -/
theorem md5Hex_length (msg : List ℕ) : (md5Hex msg).length = 32 :=
  md5Hex_data_length msg

/-- Two joined tails that differ at one aligned position (same length,
different text) differ as strings, whatever follows. -/
theorem joinTail_ne (sep : String) :
    ∀ (A : List String) (x₁ x₂ : String) (B₁ B₂ : List String),
      x₁.data.length = x₂.data.length → x₁ ≠ x₂ →
      joinTail sep (A ++ x₁ :: B₁) ≠ joinTail sep (A ++ x₂ :: B₂) := by
  intro A
  induction A with
  | nil =>
    intro x₁ x₂ B₁ B₂ hlen hne heq
    apply hne
    have hd := congrArg String.data heq
    simp only [List.nil_append, joinTail, String.data_append, List.append_assoc] at hd
    have hd' := List.append_cancel_left hd
    apply String.ext
    calc x₁.data
        = (x₁.data ++ (joinTail sep B₁).data).take x₁.data.length :=
          (List.take_left _ _).symm
      _ = (x₂.data ++ (joinTail sep B₂).data).take x₂.data.length := by
          rw [hd', hlen]
      _ = x₂.data := List.take_left _ _
  | cons a A ih =>
    intro x₁ x₂ B₁ B₂ hlen hne heq
    have hd := congrArg String.data heq
    simp only [List.cons_append, joinTail, String.data_append, List.append_assoc] at hd
    have hd₁ := List.append_cancel_left hd
    have hd₂ := List.append_cancel_left hd₁
    exact ih x₁ x₂ B₁ B₂ hlen hne (String.ext hd₂)

/-- Same, for the full join. -/
theorem joinSep_ne (sep : String) :
    ∀ (A : List String) (x₁ x₂ : String) (B₁ B₂ : List String),
      x₁.data.length = x₂.data.length → x₁ ≠ x₂ →
      joinSep sep (A ++ x₁ :: B₁) ≠ joinSep sep (A ++ x₂ :: B₂) := by
  intro A
  cases A with
  | nil =>
    intro x₁ x₂ B₁ B₂ hlen hne heq
    apply hne
    have hd := congrArg String.data heq
    simp only [List.nil_append, joinSep, String.data_append] at hd
    apply String.ext
    calc x₁.data
        = (x₁.data ++ (joinTail sep B₁).data).take x₁.data.length :=
          (List.take_left _ _).symm
      _ = (x₂.data ++ (joinTail sep B₂).data).take x₂.data.length := by
          rw [hd, hlen]
      _ = x₂.data := List.take_left _ _
  | cons a A =>
    intro x₁ x₂ B₁ B₂ hlen hne heq
    have hd := congrArg String.data heq
    simp only [List.cons_append, joinSep, String.data_append] at hd
    have hd₁ := List.append_cancel_left hd
    exact joinTail_ne sep A x₁ x₂ B₁ B₂ hlen hne (String.ext hd₁)

/-- Right-to-left membership transfer along `Forall₂`. -/
theorem forall₂_mem_right {R : α → β → Prop} :
    ∀ {l₁ : List α} {l₂ : List β}, List.Forall₂ R l₁ l₂ →
      ∀ {y : β}, y ∈ l₂ → ∃ x ∈ l₁, R x y := by
  intro l₁ l₂ h
  induction h with
  | nil => intro y hy; simp at hy
  | cons hab htail ih =>
    intro y hy
    rcases List.mem_cons.mp hy with rfl | hy'
    · exact ⟨_, List.mem_cons_self _ _, hab⟩
    · obtain ⟨x, hx, hxy⟩ := ih hy'
      exact ⟨x, List.mem_cons_of_mem _ hx, hxy⟩

/-- `same_file_data` entails equal relative paths. -/
theorem rel_path_congr {a b : FileEntry} (h : same_file_data a b) :
    rel_path a = rel_path b := by
  unfold rel_path
  rw [h.1]

/-- `_should_skip_file` reads only fields preserved by `same_file_data`. -/
theorem should_skip_congr {a b : FileEntry} (h : same_file_data a b) :
    should_skip_file a = should_skip_file b := by
  obtain ⟨hp, hn, hs, hc, hio⟩ := h
  unfold should_skip_file
  rw [hp, hn, hs, hc, hio]

/-- The fingerprint entry reads only fields preserved by
`same_file_data`. -/
theorem repo_hash_entry_congr {a b : FileEntry} (h : same_file_data a b) :
    repo_hash_entry a = repo_hash_entry b := by
  unfold repo_hash_entry
  rw [rel_path_congr h, h.2.2.2.1]

/-- Sortedness depends only on the relative paths. -/
theorem sorted_listing_transfer :
    ∀ {d₁ d₂ : List FileEntry},
      List.Forall₂ (fun a b => rel_path a = rel_path b) d₁ d₂ →
      sorted_listing d₁ → sorted_listing d₂ := by
  intro d₁ d₂ h
  induction h with
  | nil => intro _; exact List.Pairwise.nil
  | cons hab htail ih =>
    intro hp
    rcases List.pairwise_cons.mp hp with ⟨hhead, htl⟩
    refine List.pairwise_cons.mpr ⟨?_, ih htl⟩
    intro y hy
    obtain ⟨x, hx, hxy⟩ := forall₂_mem_right htail hy
    have hax := hhead x hx
    unfold path_le at hax ⊢
    rw [← hab, ← hxy]
    exact hax

/-- Pointwise `same_file_data` gives identical fingerprint entries. -/
theorem entries_congr :
    ∀ {d₁ d₂ : List FileEntry}, List.Forall₂ same_file_data d₁ d₂ →
      ((d₁.filter fun f => ¬ should_skip_file f).map repo_hash_entry) =
        ((d₂.filter fun f => ¬ should_skip_file f).map repo_hash_entry) := by
  intro d₁ d₂ h
  induction h with
  | nil => rfl
  | cons hab htail ih =>
    rename_i a b l₁ l₂
    by_cases hk : should_skip_file a
    · rw [List.filter_cons_of_neg (by simp [hk]),
        List.filter_cons_of_neg (by simp [← should_skip_congr hab, hk])]
      exact ih
    · rw [List.filter_cons_of_pos (by simp [hk]),
        List.filter_cons_of_pos (by simp [← should_skip_congr hab, hk]),
        List.map_cons, List.map_cons, ih, repo_hash_entry_congr hab]

/-- On an already-sorted listing the fingerprint is the digest of the
joined entries of the kept files, in order. -/
theorem calculate_repository_hash_of_sorted {dir : List FileEntry}
    (hs : sorted_listing dir) :
    calculate_repository_hash dir =
      md5HexOfString (joinSep "|"
        ((dir.filter fun f => ¬ should_skip_file f).map repo_hash_entry)) := by
  unfold calculate_repository_hash combined_string fingerprint_entries
    fingerprint_files
  rw [List.mergeSort_of_sorted hs]

/-- Entry-list decomposition around one kept file of a sorted listing. -/
theorem fingerprint_entries_decompose (l₁ l₂ : List FileEntry) (x : FileEntry)
    (hs : sorted_listing (l₁ ++ x :: l₂)) (hx : should_skip_file x = false) :
    fingerprint_entries (l₁ ++ x :: l₂) =
      ((l₁.filter fun f => ¬ should_skip_file f).map repo_hash_entry) ++
        repo_hash_entry x ::
          ((l₂.filter fun f => ¬ should_skip_file f).map repo_hash_entry) := by
  unfold fingerprint_entries fingerprint_files
  rw [List.mergeSort_of_sorted hs, List.filter_append,
    List.filter_cons_of_pos (by simp [hx]), List.map_append, List.map_cons]

/-- Every list is pointwise path-equal to itself. -/
theorem forall₂_path_refl (l : List FileEntry) :
    List.Forall₂ (fun a b => rel_path a = rel_path b) l l := by
  induction l with
  | nil => exact .nil
  | cons a t ih => exact .cons rfl ih

/-- Replacing one file by a path-equal one is a pointwise path-equal
listing. -/
theorem forall₂_replace (l₁ l₂ : List FileEntry) (x y : FileEntry)
    (hxy : rel_path x = rel_path y) :
    List.Forall₂ (fun a b => rel_path a = rel_path b)
      (l₁ ++ x :: l₂) (l₁ ++ y :: l₂) := by
  induction l₁ with
  | nil => exact .cons hxy (forall₂_path_refl l₂)
  | cons a t ih => exact .cons rfl ih

/-- Replacing two files by path-equal ones is a pointwise path-equal
listing. -/
theorem forall₂_replace₂ (l₁ l₂ l₃ : List FileEntry) (x y u v : FileEntry)
    (hxy : rel_path x = rel_path y) (huv : rel_path u = rel_path v) :
    List.Forall₂ (fun a b => rel_path a = rel_path b)
      (l₁ ++ x :: (l₂ ++ u :: l₃)) (l₁ ++ y :: (l₂ ++ v :: l₃)) := by
  induction l₁ with
  | nil => exact .cons hxy (forall₂_replace l₂ l₃ u v huv)
  | cons a t ih => exact .cons rfl ih

/-- Replacing a file's content keeps its entry length (digests have a
fixed 32-character width). -/
theorem repo_hash_entry_length (f : FileEntry) (c : List ℕ) :
    (repo_hash_entry { f with content := c }).data.length =
      (repo_hash_entry f).data.length := by
  unfold repo_hash_entry
  have hrp : rel_path { f with content := c } = rel_path f := rfl
  rw [hrp]
  simp [String.data_append, md5Hex_data_length, md5Hex_length]

/-- Entries with equal paths but different content digests differ. -/
theorem repo_hash_entry_ne (f : FileEntry) (c : List ℕ)
    (h : md5Hex c ≠ md5Hex f.content) :
    repo_hash_entry { f with content := c } ≠ repo_hash_entry f := by
  unfold repo_hash_entry
  intro heq
  apply h
  have hrp : rel_path { f with content := c } = rel_path f := rfl
  rw [hrp] at heq
  have hd := congrArg String.data heq
  simp only [String.data_append, List.append_assoc] at hd
  have h1 := List.append_cancel_left hd
  have h2 := List.append_cancel_left h1
  exact String.ext h2

/-- C3 (amended): the repository fingerprint is a pure function of the
included files' relative paths and byte contents — listings that agree on
paths, names, suffixes, contents and readability (but may differ in
mtime or permissions) produce the same digest; changing one included
file's content to one with a different file digest changes the
fingerprint (assuming the combined entry strings do not collide under
MD5); and swapping the paths of two included files with *different*
content digests changes the fingerprint under the same proviso.  The
original claim's swap clause fails for two files with identical
contents, see the counterexample. -/
theorem fingerprint_content_function :
    (∀ (d₁ d₂ : List FileEntry), sorted_listing d₁ →
      List.Forall₂ same_file_data d₁ d₂ →
      calculate_repository_hash d₁ = calculate_repository_hash d₂) ∧
    (∀ (l₁ l₂ : List FileEntry) (f : FileEntry) (c₂ : List ℕ),
      sorted_listing (l₁ ++ f :: l₂) →
      should_skip_file f = false →
      should_skip_file { f with content := c₂ } = false →
      md5Hex c₂ ≠ md5Hex f.content →
      (calculate_repository_hash (l₁ ++ { f with content := c₂ } :: l₂) =
          calculate_repository_hash (l₁ ++ f :: l₂) →
        combined_string (l₁ ++ { f with content := c₂ } :: l₂) =
          combined_string (l₁ ++ f :: l₂)) →
      calculate_repository_hash (l₁ ++ { f with content := c₂ } :: l₂) ≠
        calculate_repository_hash (l₁ ++ f :: l₂)) ∧
    (∀ (l₁ l₂ l₃ : List FileEntry) (f g : FileEntry),
      sorted_listing (l₁ ++ f :: (l₂ ++ g :: l₃)) →
      should_skip_file f = false → should_skip_file g = false →
      should_skip_file { f with content := g.content } = false →
      should_skip_file { g with content := f.content } = false →
      md5Hex f.content ≠ md5Hex g.content →
      (calculate_repository_hash (l₁ ++ { f with content := g.content } ::
            (l₂ ++ { g with content := f.content } :: l₃)) =
          calculate_repository_hash (l₁ ++ f :: (l₂ ++ g :: l₃)) →
        combined_string (l₁ ++ { f with content := g.content } ::
            (l₂ ++ { g with content := f.content } :: l₃)) =
          combined_string (l₁ ++ f :: (l₂ ++ g :: l₃))) →
      calculate_repository_hash (l₁ ++ { f with content := g.content } ::
          (l₂ ++ { g with content := f.content } :: l₃)) ≠
        calculate_repository_hash (l₁ ++ f :: (l₂ ++ g :: l₃))) := by
  refine ⟨?_, ?_, ?_⟩
  · intro d₁ d₂ hs₁ hrel
    have hpaths : List.Forall₂ (fun a b => rel_path a = rel_path b) d₁ d₂ :=
      List.Forall₂.imp (fun a b h => rel_path_congr h) hrel
    have hs₂ := sorted_listing_transfer hpaths hs₁
    rw [calculate_repository_hash_of_sorted hs₁,
      calculate_repository_hash_of_sorted hs₂, entries_congr hrel]
  · intro l₁ l₂ f c₂ hs hkf hkf' hne hcol heq
    have hs' : sorted_listing (l₁ ++ { f with content := c₂ } :: l₂) :=
      sorted_listing_transfer (forall₂_replace l₁ l₂ f _ rfl) hs
    have hcomb := hcol heq
    unfold combined_string at hcomb
    rw [fingerprint_entries_decompose l₁ l₂ _ hs' hkf',
      fingerprint_entries_decompose l₁ l₂ f hs hkf] at hcomb
    exact absurd hcomb (joinSep_ne "|" _ _ _ _ _
      (repo_hash_entry_length f c₂) (repo_hash_entry_ne f c₂ hne))
  · intro l₁ l₂ l₃ f g hs hkf hkg hkf' hkg' hne hcol heq
    have hs' : sorted_listing (l₁ ++ { f with content := g.content } ::
        (l₂ ++ { g with content := f.content } :: l₃)) :=
      sorted_listing_transfer (forall₂_replace₂ l₁ l₂ l₃ f _ g _ rfl rfl) hs
    have hcomb := hcol heq
    unfold combined_string at hcomb
    rw [fingerprint_entries_decompose l₁ (l₂ ++ { g with content := f.content } :: l₃)
        _ hs' hkf',
      fingerprint_entries_decompose l₁ (l₂ ++ g :: l₃) f hs hkf,
      List.filter_append, List.filter_append,
      List.filter_cons_of_pos (by simp [hkg']), List.filter_cons_of_pos (by simp [hkg]),
      List.map_append, List.map_append, List.map_cons, List.map_cons] at hcomb
    exact absurd hcomb (joinSep_ne "|" _ _ _ _ _
      (repo_hash_entry_length f g.content) (repo_hash_entry_ne f g.content hne.symm))

/-- C3 counterexample to the claim as stated: swapping the paths of two
included files whose contents are identical leaves the directory content
— and hence the fingerprint — unchanged (here the two files carry their
stat metadata along in the swap, so the listings differ, but the digest
is the same). -/
theorem path_swap_same_content_same_digest :
    calculate_repository_hash
        [⟨["a.py"], "a.py", ".py", [104, 105], 7, 8, false⟩,
         ⟨["b.py"], "b.py", ".py", [104, 105], 5, 6, false⟩] =
      calculate_repository_hash
        [⟨["a.py"], "a.py", ".py", [104, 105], 5, 6, false⟩,
         ⟨["b.py"], "b.py", ".py", [104, 105], 7, 8, false⟩] := by
  rw [calculate_repository_hash_of_sorted (by unfold sorted_listing; decide),
    calculate_repository_hash_of_sorted (by unfold sorted_listing; decide)]
  decide

/-- Witness for the amended C3: a metadata-only change keeps the digest;
a one-byte content change flips it; swapping two files with different
contents flips it. -/
theorem fingerprint_content_function_witness :
    (calculate_repository_hash [⟨["a.py"], "a.py", ".py", [104], 1, 2, false⟩] =
      calculate_repository_hash [⟨["a.py"], "a.py", ".py", [104], 3, 4, false⟩]) ∧
    (calculate_repository_hash [⟨["a.py"], "a.py", ".py", [105], 0, 0, false⟩] ≠
      calculate_repository_hash [⟨["a.py"], "a.py", ".py", [104], 0, 0, false⟩]) ∧
    (calculate_repository_hash
        [⟨["a.py"], "a.py", ".py", [105], 0, 0, false⟩,
         ⟨["b.py"], "b.py", ".py", [104], 0, 0, false⟩] ≠
      calculate_repository_hash
        [⟨["a.py"], "a.py", ".py", [104], 0, 0, false⟩,
         ⟨["b.py"], "b.py", ".py", [105], 0, 0, false⟩]) :=
  ⟨fingerprint_content_function.1
      [⟨["a.py"], "a.py", ".py", [104], 1, 2, false⟩]
      [⟨["a.py"], "a.py", ".py", [104], 3, 4, false⟩]
      (by unfold sorted_listing; decide) (.cons ⟨rfl, rfl, rfl, rfl, rfl⟩ .nil),
   fingerprint_content_function.2.1 [] [] ⟨["a.py"], "a.py", ".py", [104], 0, 0, false⟩
      [105] (by unfold sorted_listing; decide) (by decide) (by decide) (by decide)
      (by
        intro h
        rw [calculate_repository_hash_of_sorted (by unfold sorted_listing; decide),
          calculate_repository_hash_of_sorted (by unfold sorted_listing; decide)] at h
        exact absurd h (by decide)),
   fingerprint_content_function.2.2 [] [] []
      ⟨["a.py"], "a.py", ".py", [104], 0, 0, false⟩
      ⟨["b.py"], "b.py", ".py", [105], 0, 0, false⟩
      (by unfold sorted_listing; decide) (by decide) (by decide) (by decide)
      (by decide) (by decide)
      (by
        intro h
        rw [calculate_repository_hash_of_sorted (by unfold sorted_listing; decide),
          calculate_repository_hash_of_sorted (by unfold sorted_listing; decide)] at h
        exact absurd h (by decide))⟩
